import Mathlib

set_option maxRecDepth 100000

/-!
Shallow embedding of the email-page service (src/src/index.ts, src/src/helpers.ts,
src/src/types.ts): page-id generation (SHA-256 of a clock+randomness string,
hex-encoded, truncated), the `{{key}}` template engine, the create/retrieve HTTP
handlers over an explicit page store, and the best-effort email notifier.
-/

namespace EmailPage

/-! ### SHA-256 (models node `crypto.createHash("sha256")`)

The digest is computed over a byte list (`List Nat`, each byte `< 256`),
with 32-bit words represented as `Nat` reduced mod `2^32`.
-/

/-- Reduce a natural number to a 32-bit word. -/
def w32 (n : Nat) : Nat := n % 4294967296

/-- Right rotation of a 32-bit word by `n` bits. -/
def rotr (n x : Nat) : Nat := w32 ((x >>> n) ||| (x <<< (32 - n)))

/-- SHA-256 Ch function. -/
def ch (x y z : Nat) : Nat := (x &&& y) ^^^ ((x ^^^ 4294967295) &&& z)

/-- SHA-256 Maj function. -/
def maj (x y z : Nat) : Nat := (x &&& y) ^^^ (x &&& z) ^^^ (y &&& z)

/-- SHA-256 big sigma 0. -/
def bsig0 (x : Nat) : Nat := rotr 2 x ^^^ rotr 13 x ^^^ rotr 22 x

/-- SHA-256 big sigma 1. -/
def bsig1 (x : Nat) : Nat := rotr 6 x ^^^ rotr 11 x ^^^ rotr 25 x

/-- SHA-256 small sigma 0. -/
def ssig0 (x : Nat) : Nat := rotr 7 x ^^^ rotr 18 x ^^^ (x >>> 3)

/-- SHA-256 small sigma 1. -/
def ssig1 (x : Nat) : Nat := rotr 17 x ^^^ rotr 19 x ^^^ (x >>> 10)

/-- The 64 SHA-256 round constants. -/
def K : List Nat :=
  [1116352408, 1899447441, 3049323471, 3921009573, 961987163, 1508970993,
   2453635748, 2870763221, 3624381080, 310598401, 607225278, 1426881987,
   1925078388, 2162078206, 2614888103, 3248222580, 3835390401, 4022224774,
   264347078, 604807628, 770255983, 1249150122, 1555081692, 1996064986,
   2554220882, 2821834349, 2952996808, 3210313671, 3336571891, 3584528711,
   113926993, 338241895, 666307205, 773529912, 1294757372, 1396182291,
   1695183700, 1986661051, 2177026350, 2456956037, 2730485921, 2820302411,
   3259730800, 3345764771, 3516065817, 3600352804, 4094571909, 275423344,
   430227734, 506948616, 659060556, 883997877, 958139571, 1322822218,
   1537002063, 1747873779, 1955562222, 2024104815, 2227730452, 2361852424,
   2428436474, 2756734187, 3204031479, 3329325298]

/-- The eight 32-bit working variables of the SHA-256 compression function. -/
structure Sha256State where
  a : Nat
  b : Nat
  c : Nat
  d : Nat
  e : Nat
  f : Nat
  g : Nat
  h : Nat
deriving DecidableEq

/-- SHA-256 initial hash value. -/
def H0 : Sha256State :=
  ⟨1779033703, 3144134277, 1013904242, 2773480762, 1359893119, 2600822924, 528734635, 1541459225⟩

/-- One SHA-256 round, taking the round constant paired with the schedule word. -/
def roundStep (kw : Nat × Nat) (s : Sha256State) : Sha256State :=
  let t1 := w32 (s.h + bsig1 s.e + ch s.e s.f s.g + kw.1 + kw.2)
  let t2 := w32 (bsig0 s.a + maj s.a s.b s.c)
  ⟨w32 (t1 + t2), s.a, s.b, s.c, w32 (s.d + t1), s.e, s.f, s.g⟩

/-- Big-endian packing of bytes into 32-bit words, four bytes at a time. -/
def bytesToWords : List Nat → List Nat
  | b0 :: b1 :: b2 :: b3 :: rest =>
      (b0 * 16777216 + b1 * 65536 + b2 * 256 + b3) :: bytesToWords rest
  | _ => []

/-- Extend the message schedule by `n` further words. -/
def scheduleAux : Nat → List Nat → List Nat
  | 0, w => w
  | n + 1, w =>
      let t := w.length
      let nw := w32 (ssig1 (w.getD (t - 2) 0) + w.getD (t - 7) 0 +
                     ssig0 (w.getD (t - 15) 0) + w.getD (t - 16) 0)
      scheduleAux n (w ++ [nw])

/-- The 64-word SHA-256 message schedule from the 16 words of one block. -/
def schedule (w : List Nat) : List Nat := scheduleAux 48 w

/-- SHA-256 compression of one 64-byte block into the running state. -/
def compressBlock (s : Sha256State) (block : List Nat) : Sha256State :=
  let ws := schedule (bytesToWords block)
  let f := (List.zip K ws).foldl (fun st p => roundStep p st) s
  ⟨w32 (s.a + f.a), w32 (s.b + f.b), w32 (s.c + f.c), w32 (s.d + f.d),
   w32 (s.e + f.e), w32 (s.f + f.f), w32 (s.g + f.g), w32 (s.h + f.h)⟩

/-- Big-endian 8-byte encoding of the message bit length. -/
def lenBytes (n : Nat) : List Nat :=
  [(n >>> 56) % 256, (n >>> 48) % 256, (n >>> 40) % 256, (n >>> 32) % 256,
   (n >>> 24) % 256, (n >>> 16) % 256, (n >>> 8) % 256, n % 256]

/-- SHA-256 padding: append `0x80`, zeros to 56 mod 64, then the 64-bit bit length. -/
def padMessage (msg : List Nat) : List Nat :=
  let L := msg.length
  let z := (120 - ((L + 1) % 64)) % 64
  msg ++ 128 :: (List.replicate z 0 ++ lenBytes (8 * L))

/-- Split into 64-byte blocks; the count argument is the number of blocks. -/
def toBlocksAux : Nat → List Nat → List (List Nat)
  | 0, _ => []
  | n + 1, bytes => bytes.take 64 :: toBlocksAux n (bytes.drop 64)

/-- Big-endian bytes of one 32-bit word. -/
def wordBytes (w : Nat) : List Nat :=
  [(w >>> 24) % 256, (w >>> 16) % 256, (w >>> 8) % 256, w % 256]

/-- Map each element of a list to a list and concatenate the results. -/
def concatMap (f : α → List β) : List α → List β
  | [] => []
  | a :: as => f a ++ concatMap f as

/-- The 32 digest bytes of a final SHA-256 state. -/
def digestBytes (s : Sha256State) : List Nat :=
  concatMap wordBytes [s.a, s.b, s.c, s.d, s.e, s.f, s.g, s.h]

/-- SHA-256 digest (32 bytes) of a byte list. -/
def sha256 (msg : List Nat) : List Nat :=
  let padded := padMessage msg
  digestBytes ((toBlocksAux (padded.length / 64) padded).foldl compressBlock H0)

/-! ### Hex encoding and `generatePageId` (src/src/helpers.ts lines 9-21) -/

/-- The sixteen lowercase hex digit characters. -/
def hexChars : List Char := "0123456789abcdef".toList

/-- The hex character for a nibble. -/
def hexDigit (n : Nat) : Char := hexChars.getD n '0'

/-- Lowercase hex encoding of a byte list (node `digest("hex")`). -/
def bytesToHex (bs : List Nat) : List Char :=
  concatMap (fun b => [hexDigit (b / 16), hexDigit (b % 16)]) bs

/-- UTF-8 encoding of one character. -/
def utf8EncodeChar (c : Char) : List Nat :=
  let n := c.toNat
  if n < 128 then [n]
  else if n < 2048 then [192 + n / 64, 128 + n % 64]
  else if n < 65536 then [224 + n / 4096, 128 + (n / 64) % 64, 128 + n % 64]
  else [240 + n / 262144, 128 + (n / 4096) % 64, 128 + (n / 64) % 64, 128 + n % 64]

/-- UTF-8 encoding of a string (node `hash.update(string)` uses UTF-8). -/
def utf8Encode (s : String) : List Nat := concatMap utf8EncodeChar s.toList

/-- Hex digest string of the SHA-256 of a string's UTF-8 bytes. -/
def sha256Hex (s : String) : List Char := bytesToHex (sha256 (utf8Encode s))

/-- Embeds `generatePageId` (src/src/helpers.ts): SHA-256 the unique
clock+randomness string, hex-encode, and take the first `hashLength`
characters (JS `substring(0, hashLength)` clamps at the string's length).
The nondeterministic `now.toISOString() + Math.random().toString()` input is
made explicit as the `uniqueString` argument. -/
def generatePageId (hashLength : Nat) (uniqueString : String) : String :=
  String.mk ((sha256Hex uniqueString).take hashLength)

/-! ### Template engine (`applyTemplate`, src/src/helpers.ts lines 24-28)

Embeds `template.replace(/\x7b\x7b(\w+)\x7d\x7d/g, (match, key) =>
data[key] !== undefined ? data[key] : match)`: a single left-to-right scan
replacing each `{{key}}` token (key a non-empty run of word characters) by the
value of the property access `data[key]` when that is not undefined, and by
the matched text itself (i.e. unchanged) when it is. The access is on a plain
JS object literal, so it traverses the prototype chain: keys naming
`Object.prototype` members (`constructor`, `toString`, ...) are never
undefined and are substituted (with the inherited member's string coercion)
even when the map binds nothing.
-/

/-- JS regex `\w`: ASCII letters, digits, underscore. -/
def isWordChar (c : Char) : Bool := c.isAlphanum || c == '_'

/-- Split off the maximal leading run of word characters (greedy `\w+`). -/
def takeWord : List Char → List Char × List Char
  | [] => ([], [])
  | c :: cs =>
      if isWordChar c then
        let p := takeWord cs
        (c :: p.1, p.2)
      else ([], c :: cs)

/-- Try to match a `{{key}}` token at the head of the list; on success return
the key and its length (the token occupies `length + 4` characters). -/
def matchToken (l : List Char) : Option (String × Nat) :=
  match l with
  | c1 :: c2 :: rest =>
      if c1 = '{' ∧ c2 = '{' then
        match takeWord rest with
        | (w, d1 :: d2 :: _) =>
            if w ≠ [] ∧ d1 = '}' ∧ d2 = '}' then some (String.mk w, w.length)
            else none
        | _ => none
      else none
  | _ => none

/-- First-match lookup of an own property of the values-map object literal. -/
def lookupValue (data : List (String × String)) (k : String) : Option String :=
  match data with
  | [] => none
  | (k', v) :: rest => if k' = k then some v else lookupValue rest k

/-- The own property names of `Object.prototype` (V8/Node): on any JS object
literal, `data[key] !== undefined` holds for these keys even when the map
binds nothing, the access returning the inherited member. -/
def protoProps : List String :=
  ["constructor", "__defineGetter__", "__defineSetter__", "hasOwnProperty",
   "__lookupGetter__", "__lookupSetter__", "isPrototypeOf",
   "propertyIsEnumerable", "toString", "valueOf", "__proto__",
   "toLocaleString"]

/-- The string the replacer's return value coerces to when `data[key]` hits an
inherited `Object.prototype` member: V8 renders the built-in methods as
`function name() \x7b [native code] \x7d` (the `constructor` slot holds the
function named `Object`), and the `__proto__` accessor yields
`Object.prototype` itself, which coerces to `[object Object]`. -/
def protoValue (k : String) : String :=
  if k = "__proto__" then "[object Object]"
  else if k = "constructor" then "function Object() \x7b [native code] \x7d"
  else "function " ++ k ++ "() \x7b [native code] \x7d"

/-- Embeds the replacer's `data[key] !== undefined ? data[key] : match` access
on the JS object literal `data`: an own property when the map binds the key,
else the inherited `Object.prototype` member (as the string it coerces to),
else undefined. -/
def jsProp (data : List (String × String)) (k : String) : Option String :=
  match lookupValue data k with
  | some v => some v
  | none => if k ∈ protoProps then some (protoValue k) else none

/-- The literal characters of a `{{key}}` token. -/
def tokenChars (k : String) : List Char :=
  '{' :: '{' :: (k.toList ++ '}' :: '}' :: [])

/-- Fuelled single left-to-right template scan; `fuel` at least the list length
makes the fuel irrelevant (each step consumes at least one character). -/
def applyTemplateAux (data : List (String × String)) : Nat → List Char → List Char
  | 0, l => l
  | _ + 1, [] => []
  | fuel + 1, c :: cs =>
      match matchToken (c :: cs) with
      | some (k, n) =>
          (match jsProp data k with
           | some v => v.toList
           | none => tokenChars k) ++ applyTemplateAux data fuel ((c :: cs).drop (n + 4))
      | none => c :: applyTemplateAux data fuel cs

/-- Embeds `applyTemplate` (src/src/helpers.ts): replace `{{key}}` tokens by
the value of the property access `data[key]` in one pass, leaving a token
unchanged exactly when that access is undefined (so a key inherited from
`Object.prototype` is substituted even when absent from the map). -/
def applyTemplate (template : String) (data : List (String × String)) : String :=
  String.mk (applyTemplateAux data template.toList.length template.toList)

/-- Non-empty run of word characters: the keys the token regex can produce. -/
def validKey (k : String) : Bool := !k.toList.isEmpty && k.toList.all isWordChar

/-! ### String helpers used by the create handler -/

/-- JS `toLowerCase`, per character (ASCII range; all characters the handler
tests against, `"<html"`, are ASCII). -/
def jsToLower (l : List Char) : List Char := l.map Char.toLower

/-- Does the list start with the given pattern? -/
def startsWithL : List Char → List Char → Bool
  | _, [] => true
  | [], _ :: _ => false
  | c :: cs, d :: ds => c == d && startsWithL cs ds

/-- JS `String.prototype.includes`: does the pattern occur as a contiguous
substring? -/
def containsSub : List Char → List Char → Bool
  | [], needle => needle.isEmpty
  | c :: cs, needle => startsWithL (c :: cs) needle || containsSub cs needle

/-- Embeds `message.replace(/\n/g, "<br/>")`: convert newlines to `<br/>`. -/
def replaceNewlines (l : List Char) : List Char :=
  concatMap (fun c => if c = '\n' then "<br/>".toList else [c]) l

/-! ### Notifier (`sendEmail`, src/src/helpers.ts lines 31-64)

The nodemailer transport and the SMTP delivery are external I/O; the delivery
outcome is made explicit as a `SendOutcome` argument, and the constructed
transport/mail options are recorded in the result. A JS rejection of the async
function is modelled as `Except.error`; the function's own try/catch makes
every path return `Except.ok`.
-/

/-- SMTP part of the configuration (src/src/types.ts); the index.ts config
fills every field from the environment with `""` as the default. -/
structure SmtpConfig where
  host : String
  port : String
  user : String
  pass : String
deriving DecidableEq

/-- Sender and recipient addresses (src/src/types.ts fields `from` and `to`;
renamed because `from` is a Lean keyword). -/
structure EmailConfig where
  fromAddr : String
  toAddr : String
deriving DecidableEq

/-- Embeds `IConfig` (src/src/types.ts). -/
structure IConfig where
  smtp : SmtpConfig
  email : EmailConfig
  domain : String
deriving DecidableEq

/-- JS `parseInt(s, 10)`: skip leading whitespace, optional sign, maximal
digit prefix; `none` models `NaN`. -/
def jsParseInt (s : String) : Option Int :=
  let cs := s.toList.dropWhile (fun c => c = ' ' || c = '\t' || c = '\n' || c = '\r')
  let digitsVal : List Char → Option Nat := fun l =>
    let ds := l.takeWhile Char.isDigit
    if ds.isEmpty then none
    else some (ds.foldl (fun a c => a * 10 + (c.toNat - 48)) 0)
  match cs with
  | '-' :: rest => (digitsVal rest).map (fun n => -(n : Int))
  | '+' :: rest => (digitsVal rest).map (fun n => (n : Int))
  | _ => (digitsVal cs).map (fun n => (n : Int))

/-- The options `nodemailer.createTransport` is called with: host, resolved
port (`none` models `NaN`), the secure flag, and optional credentials. -/
structure Transport where
  host : String
  port : Option Int
  secure : Bool
  auth : Option (String × String)
deriving DecidableEq

/-- The message handed to `transporter.sendMail`. -/
structure MailOptions where
  fromAddr : String
  toAddr : String
  subject : String
  text : String
  html : String
deriving DecidableEq

/-- Outcome of the external SMTP delivery attempt. -/
inductive SendOutcome where
  | success (messageId : String)
  | failure (error : String)
deriving DecidableEq

/-- Observable effects of one `sendEmail` call: the transport constructed (if
any), the mail handed to it (if any), and the console log lines. -/
structure EmailResult where
  transport : Option Transport
  mail : Option MailOptions
  log : List String
deriving DecidableEq

/-- Models `transporter.sendMail`: resolves with a message id or rejects. -/
def sendMailOp (o : SendOutcome) : Except String String :=
  match o with
  | .success id => .ok id
  | .failure e => .error e

/-- Embeds `sendEmail` (src/src/helpers.ts lines 31-64). Skips (with a log
line) when host, from, or to is empty; otherwise builds the transport
(port defaulting to 25, secure exactly for port string "465", credentials only
when both user and pass are non-empty), sends, and catches any delivery
rejection, logging success or failure. -/
def sendEmail (config : IConfig) (pageUrl : String) (title : String)
    (o : SendOutcome) : Except String EmailResult :=
  if config.smtp.host = "" ∨ config.email.fromAddr = "" ∨ config.email.toAddr = "" then
    .ok ⟨none, none, ["SMTP configuration incomplete, skipping email send"]⟩
  else
    let transporter : Transport :=
      ⟨config.smtp.host,
       if config.smtp.port = "" then some 25 else jsParseInt config.smtp.port,
       config.smtp.port = "465",
       if config.smtp.user ≠ "" ∧ config.smtp.pass ≠ "" then
         some (config.smtp.user, config.smtp.pass)
       else none⟩
    let mailOptions : MailOptions :=
      ⟨config.email.fromAddr, config.email.toAddr, title,
       title ++ "\n\nView at: " ++ pageUrl,
       "<p><strong>" ++ title ++ "</strong>.</p><p>View at: <a href=\"" ++
         pageUrl ++ "\">" ++ pageUrl ++ "</a></p>"⟩
    match sendMailOp o with
    | .ok info =>
        .ok ⟨some transporter, some mailOptions, ["Email sent: " ++ info]⟩
    | .error e =>
        .ok ⟨some transporter, some mailOptions, ["Error sending email: " ++ e]⟩

/-! ### HTTP handlers (src/src/index.ts lines 148-213)

The data directory is modelled as an association list from filename to file
content; `fs.writeFileSync` prepends (first-match lookup gives overwrite
semantics), `fs.existsSync`/`readFileSync` is `storeLookup`. The fresh
clock+randomness string consumed by `generatePageId` is an explicit argument.
-/

/-- The data directory: filename to stored content, newest first. -/
abbrev Store := List (String × String)

/-- File lookup in the data directory. -/
def storeLookup (st : Store) (name : String) : Option String :=
  match st with
  | [] => none
  | (n, c) :: rest => if n = name then some c else storeLookup rest name

/-- An HTTP response: status, explicitly set Content-Type header, body. -/
structure HttpResponse where
  status : Nat
  contentType : Option String
  body : String
deriving DecidableEq

/-- The exact body express sends for `res.status(400).json(\x7berror:
"Title and message are required"\x7d)`. -/
def errRequired : String := "\x7b\"error\":\"Title and message are required\"\x7d"

/-- Result of one `POST /new` request: the response, the data directory
afterwards, and the `(pageUrl, title)` passed to `sendEmail` (if called). -/
structure CreateResult where
  resp : HttpResponse
  store : Store
  emailCall : Option (String × String)
deriving DecidableEq

/-- Embeds the `POST /new` handler (src/src/index.ts lines 148-194): validate
that title and message are present and non-empty (JS falsiness on the parsed
body fields), generate a page id, store the message verbatim when it contains
`<html` case-insensitively and the template rendering otherwise, fire the
email notification, and respond 204 with an empty body. -/
def postNew (htmlTemplate : String) (domain : String) (hashLength : Nat)
    (uniqueString : String) (st : Store) (title message : Option String) :
    CreateResult :=
  if title.getD "" = "" ∨ message.getD "" = "" then
    ⟨⟨400, some "application/json", errRequired⟩, st, none⟩
  else
    let t := title.getD ""
    let msg := message.getD ""
    let pageId := generatePageId hashLength uniqueString
    let filename := "page-" ++ pageId ++ ".html"
    let isHTML := containsSub (jsToLower msg.toList) "<html".toList
    let htmlContent :=
      if isHTML then msg
      else applyTemplate htmlTemplate
        [("title", t), ("message", String.mk (replaceNewlines msg.toList))]
    let pageUrl := "http://" ++ domain ++ "/" ++ pageId
    ⟨⟨204, none, ""⟩, (filename, htmlContent) :: st, some (pageUrl, t)⟩

/-- Embeds the `GET /:pageId` handler (src/src/index.ts lines 197-213): serve
the stored file with an HTML content type, or 404 with "Page not found". -/
def getPage (st : Store) (pageId : String) : HttpResponse :=
  match storeLookup st ("page-" ++ pageId ++ ".html") with
  | some content => ⟨200, some "text/html", content⟩
  | none => ⟨404, none, "Page not found"⟩

/-- Modelled from the spec: the repository's `templates/default.html` is not
under src/ (only loaded by index.ts); per the spec it is a static HTML shell
with `{{title}}` and `{{message}}` placeholders wrapping the submitted
content. -/
def defaultTemplate : String :=
  "<html><head><title>{{title}}</title></head><body><h1>{{title}}</h1><div>{{message}}</div></body></html>"

/-- Hex-character predicate of the spec's `[0-9a-f]` class. -/
def isHexChar (c : Char) : Bool :=
  ('0' ≤ c && c ≤ '9') || ('a' ≤ c && c ≤ 'f')

/-! ## Lemmas and claim theorems -/

/-- Helper: rebuilding a string from its character list is the identity. -/
theorem mk_toList (s : String) : String.mk s.toList = s := rfl

/-- Helper: length of `concatMap` under a uniform length for `f`. -/
theorem concatMap_length (f : α → List β) (k : Nat) (hf : ∀ a, (f a).length = k) :
    ∀ l : List α, (concatMap f l).length = k * l.length := by
  intro l
  induction l with
  | nil => simp [concatMap]
  | cons a as ih =>
      simp [concatMap, hf a, ih]
      ring

/-- Helper: membership in a `concatMap` comes from membership in one image. -/
theorem mem_concatMap (f : α → List β) (b : β) :
    ∀ l : List α, b ∈ concatMap f l → ∃ a ∈ l, b ∈ f a := by
  intro l
  induction l with
  | nil => intro h; simp [concatMap] at h
  | cons a as ih =>
      intro h
      rw [concatMap, List.mem_append] at h
      rcases h with h | h
      · exact ⟨a, List.mem_cons_self a as, h⟩
      · obtain ⟨a', ha', hb⟩ := ih h
        exact ⟨a', List.mem_cons_of_mem a ha', hb⟩

/-- Helper: each big-endian byte of a 32-bit word is below 256. -/
theorem wordBytes_lt (w : Nat) : ∀ b ∈ wordBytes w, b < 256 := by
  intro b hb
  simp [wordBytes] at hb
  rcases hb with h | h | h | h <;> omega

/-- Helper: a SHA-256 digest is exactly 32 bytes. -/
theorem digestBytes_length (s : Sha256State) : (digestBytes s).length = 32 := by
  rw [digestBytes, concatMap_length wordBytes 4 (fun _ => rfl)]
  simp

/-- Helper: every SHA-256 digest byte is below 256. -/
theorem digestBytes_lt (s : Sha256State) : ∀ b ∈ digestBytes s, b < 256 := by
  intro b hb
  obtain ⟨w, _, hbw⟩ := mem_concatMap wordBytes b _ hb
  exact wordBytes_lt w b hbw

/-- Helper: a nibble below 16 hex-encodes to a `[0-9a-f]` character. -/
theorem hexDigit_isHex (n : Nat) (h : n < 16) : isHexChar (hexDigit n) = true := by
  interval_cases n <;> decide

/-- Helper: the hex encoding of a byte list has twice as many characters. -/
theorem bytesToHex_length (bs : List Nat) : (bytesToHex bs).length = 2 * bs.length := by
  rw [bytesToHex]
  exact concatMap_length (fun b => [hexDigit (b / 16), hexDigit (b % 16)]) 2
    (fun _ => rfl) bs

/-- Helper: hex-encoding bytes below 256 produces only `[0-9a-f]` characters. -/
theorem bytesToHex_isHex (bs : List Nat) (hbs : ∀ b ∈ bs, b < 256) :
    ∀ c ∈ bytesToHex bs, isHexChar c = true := by
  intro c hc
  obtain ⟨b, hb, hcb⟩ := mem_concatMap _ c _ hc
  have hblt := hbs b hb
  simp at hcb
  rcases hcb with h | h
  · subst h; exact hexDigit_isHex _ (by omega)
  · subst h; exact hexDigit_isHex _ (by omega)

/-- Helper: the SHA-256 hex digest of any string has exactly 64 characters. -/
theorem sha256Hex_length (s : String) : (sha256Hex s).length = 64 := by
  rw [sha256Hex, bytesToHex_length, sha256, digestBytes_length]

/-- Helper: the SHA-256 hex digest consists of `[0-9a-f]` characters only. -/
theorem sha256Hex_isHex (s : String) : ∀ c ∈ sha256Hex s, isHexChar c = true := by
  intro c hc
  exact bytesToHex_isHex _ (digestBytes_lt _) c hc

/-- C2 (amended): for `16 ≤ L ≤ 256`, `generatePageId L` returns the first
`min L 64` characters of the SHA-256 hex digest of the clock+randomness
string: its length is `min L 64` (the digest has only 64 hex characters, so
`substring(0, L)` clamps there), and every character is from `[0-9a-f]`. -/
theorem generatePageId_length_charset (L : Nat) (u : String)
    (h1 : 16 ≤ L) (h2 : L ≤ 256) :
    (generatePageId L u).length = min L 64 ∧
      ∀ c ∈ (generatePageId L u).toList, isHexChar c = true := by
  constructor
  · show ((sha256Hex u).take L).length = min L 64
    rw [List.length_take, sha256Hex_length]
  · intro c hc
    have hc' : c ∈ (sha256Hex u).take L := hc
    exact sha256Hex_isHex u c (List.take_subset _ _ hc')

/-- C2 witness: the theorem instantiated at `L = 32` on a concrete seed. -/
theorem generatePageId_length_charset_witness :
    (generatePageId 32 "seed").length = min 32 64 ∧
      ∀ c ∈ (generatePageId 32 "seed").toList, isHexChar c = true :=
  generatePageId_length_charset 32 "seed" (by decide) (by decide)

/-- C2 counterexample: at the in-range length 65 the output has 64 characters,
not 65, refuting "exactly L characters" for every `16 ≤ L ≤ 256`. -/
theorem generatePageId_not_length_65 :
    16 ≤ 65 ∧ 65 ≤ 256 ∧ (generatePageId 65 "x").length ≠ 65 := by
  refine ⟨by decide, by decide, by decide⟩

/-- Helper: `takeWord` splits its input. -/
theorem takeWord_append : ∀ l : List Char, (takeWord l).1 ++ (takeWord l).2 = l := by
  intro l
  induction l with
  | nil => rfl
  | cons c cs ih =>
      rw [takeWord]
      by_cases h : isWordChar c
      · simp only [h, if_pos]
        simpa using ih
      · simp [h]

/-- Helper: `takeWord` takes exactly a word-character run up to a brace. -/
theorem takeWord_word_brace :
    ∀ w t : List Char, (∀ c ∈ w, isWordChar c = true) →
      takeWord (w ++ '}' :: t) = (w, '}' :: t) := by
  intro w
  induction w with
  | nil => intro t _; rw [List.nil_append, takeWord]; simp [isWordChar]
  | cons c cs ih =>
      intro t hw
      rw [List.cons_append, takeWord]
      have hc : isWordChar c = true := hw c (List.mem_cons_self c cs)
      rw [ih t (fun d hd => hw d (List.mem_cons_of_mem c hd))]
      simp [hc]

/-- Helper: a `{{key}}` token at the head matches, returning the key. -/
theorem matchToken_token (k : String) (t : List Char) (hk : validKey k = true) :
    matchToken (tokenChars k ++ t) = some (k, k.toList.length) := by
  rw [validKey, Bool.and_eq_true] at hk
  have hne : k.data ≠ [] := by
    intro h
    have h1 := hk.1
    rw [Bool.not_eq_true'] at h1
    rw [show k.toList = k.data from rfl, h] at h1
    simp at h1
  have hall : ∀ c ∈ k.data, isWordChar c = true := by
    have := hk.2
    rw [List.all_eq_true] at this
    exact this
  have hshape : tokenChars k ++ t = '{' :: '{' :: (k.data ++ '}' :: ('}' :: t)) := by
    simp [tokenChars]
  rw [hshape, matchToken]
  rw [takeWord_word_brace _ _ hall]
  simp [hne, mk_toList]

/-- Helper: no token can match where the head character is not a brace. -/
theorem matchToken_none (c : Char) (cs : List Char) (hc : c ≠ '{') :
    matchToken (c :: cs) = none := by
  cases cs with
  | nil => rfl
  | cons d ds => simp [matchToken, hc]

/-- Helper: a matched token occupies at least its key length plus four. -/
theorem matchToken_bound :
    ∀ (l : List Char) (k : String) (n : Nat), matchToken l = some (k, n) →
      n + 4 ≤ l.length := by
  intro l k n h
  cases l with
  | nil => simp [matchToken] at h
  | cons c1 l1 =>
      cases l1 with
      | nil => simp [matchToken] at h
      | cons c2 rest =>
          rw [matchToken] at h
          split at h
          · split at h
            next w d1 d2 tl heq =>
              split at h
              next hd =>
                have hn : n = w.length := by
                  injection h with h'
                  injection h' with _ h2
                  exact h2.symm
                have hsplit := takeWord_append rest
                rw [heq] at hsplit
                have hlen : w.length + (d1 :: d2 :: tl).length = rest.length := by
                  rw [← List.length_append, hsplit]
                simp only [List.length_cons] at hlen ⊢
                omega
              next => simp at h
            next => simp at h
          · simp at h

/-- Helper: the fuel of the template scanner is irrelevant once it is at
least the input length (each step consumes at least one character). -/
theorem applyTemplateAux_fuel (data : List (String × String)) :
    ∀ (f1 : Nat) (l : List Char) (f2 : Nat), l.length ≤ f1 → l.length ≤ f2 →
      applyTemplateAux data f1 l = applyTemplateAux data f2 l := by
  intro f1
  induction f1 with
  | zero =>
      intro l f2 h1 _
      have : l = [] := List.eq_nil_of_length_eq_zero (Nat.le_zero.mp h1)
      subst this
      cases f2 <;> rfl
  | succ f ih =>
      intro l f2 h1 h2
      cases l with
      | nil => cases f2 <;> rfl
      | cons c cs =>
          cases f2 with
          | zero => simp at h2
          | succ g =>
              simp only [applyTemplateAux]
              cases hm : matchToken (c :: cs) with
              | none =>
                  simp only [List.length_cons] at h1 h2
                  rw [ih cs g (by omega) (by omega)]
              | some kn =>
                  obtain ⟨k, n⟩ := kn
                  have hb := matchToken_bound _ _ _ hm
                  simp only [List.length_cons] at h1 h2 hb
                  dsimp only
                  congr 1
                  apply ih
                  · simp only [List.length_drop, List.length_cons]
                    omega
                  · simp only [List.length_drop, List.length_cons]
                    omega

/-- Helper: token shape of the character list of `"\x7b\x7b" ++ k ++ "\x7d\x7d" ++ t`. -/
theorem token_append_toList (k t : String) :
    ("\x7b\x7b" ++ k ++ "\x7d\x7d" ++ t).toList = tokenChars k ++ t.toList := by
  show ("\x7b\x7b" ++ k ++ "\x7d\x7d" ++ t).data = tokenChars k ++ t.data
  simp [String.data_append, tokenChars]

/-- Helper: the string of a token's characters. -/
theorem token_mk (k : String) : String.mk (tokenChars k) = "\x7b\x7b" ++ k ++ "\x7d\x7d" := by
  apply congrArg String.mk
  show tokenChars k = ("\x7b\x7b" ++ k ++ "\x7d\x7d").data
  simp [String.data_append, tokenChars]

/-- Helper: scanning a template that starts with a token whose key is bound
replaces the token with the bound value and scans on behind it. -/
theorem applyTemplate_token_found (k v t : String) (data : List (String × String))
    (hk : validKey k = true) (hv : jsProp data k = some v) :
    applyTemplate ("\x7b\x7b" ++ k ++ "\x7d\x7d" ++ t) data = v ++ applyTemplate t data := by
  rw [applyTemplate, token_append_toList]
  have hlen : (tokenChars k ++ t.toList).length = t.toList.length + (k.toList.length + 4) := by
    simp [tokenChars]
    omega
  rw [hlen]
  have hstep :
      applyTemplateAux data (t.toList.length + (k.toList.length + 4))
          (tokenChars k ++ t.toList) =
        v.toList ++ applyTemplateAux data
          (t.toList.length + (k.toList.length + 3)) t.toList := by
    have h4 : t.toList.length + (k.toList.length + 4) =
        (t.toList.length + (k.toList.length + 3)) + 1 := by omega
    rw [h4]
    have hcons : tokenChars k ++ t.toList =
        '{' :: ('{' :: (k.toList ++ '}' :: '}' :: []) ++ t.toList) := by
      simp [tokenChars]
    rw [hcons, applyTemplateAux, ← hcons, matchToken_token k t.toList hk]
    dsimp only
    rw [hv]
    have hdrop : (tokenChars k ++ t.toList).drop (k.toList.length + 4) = t.toList := by
      have h5 : k.toList.length + 4 = (tokenChars k).length := by
        simp [tokenChars]
      rw [h5, List.drop_left]
    rw [hdrop]
  rw [hstep, applyTemplateAux_fuel data _ t.toList t.toList.length (by omega) (by omega)]
  rfl

/-- Helper: scanning a template that starts with a token whose key is unbound
leaves the token text unchanged and scans on behind it. -/
theorem applyTemplate_token_missing (k t : String) (data : List (String × String))
    (hk : validKey k = true) (hv : jsProp data k = none) :
    applyTemplate ("\x7b\x7b" ++ k ++ "\x7d\x7d" ++ t) data =
      "\x7b\x7b" ++ k ++ "\x7d\x7d" ++ applyTemplate t data := by
  rw [applyTemplate, token_append_toList]
  have hlen : (tokenChars k ++ t.toList).length = t.toList.length + (k.toList.length + 4) := by
    simp [tokenChars]
    omega
  rw [hlen]
  have hstep :
      applyTemplateAux data (t.toList.length + (k.toList.length + 4))
          (tokenChars k ++ t.toList) =
        tokenChars k ++ applyTemplateAux data
          (t.toList.length + (k.toList.length + 3)) t.toList := by
    have h4 : t.toList.length + (k.toList.length + 4) =
        (t.toList.length + (k.toList.length + 3)) + 1 := by omega
    rw [h4]
    have hcons : tokenChars k ++ t.toList =
        '{' :: ('{' :: (k.toList ++ '}' :: '}' :: []) ++ t.toList) := by
      simp [tokenChars]
    rw [hcons, applyTemplateAux, ← hcons, matchToken_token k t.toList hk]
    dsimp only
    rw [hv]
    have hdrop : (tokenChars k ++ t.toList).drop (k.toList.length + 4) = t.toList := by
      have h5 : k.toList.length + 4 = (tokenChars k).length := by
        simp [tokenChars]
      rw [h5, List.drop_left]
    rw [hdrop]
  rw [hstep, applyTemplateAux_fuel data _ t.toList t.toList.length (by omega) (by omega)]
  rw [← token_mk]
  rfl

/-- Helper: a non-brace head character passes through the scanner unchanged. -/
theorem applyTemplate_cons (c : Char) (t : String) (data : List (String × String))
    (hc : c ≠ '{') :
    applyTemplate (String.singleton c ++ t) data =
      String.singleton c ++ applyTemplate t data := by
  rw [applyTemplate]
  have h1 : (String.singleton c ++ t).toList = c :: t.toList := rfl
  rw [h1]
  simp only [List.length_cons, applyTemplateAux, matchToken_none c t.toList hc]
  rfl

/-- Helper: the scanner on the empty template yields the empty string. -/
theorem applyTemplate_empty (data : List (String × String)) :
    applyTemplate "" data = "" := rfl

/-- Helper: a brace-free prefix passes through the scanner unchanged. -/
theorem applyTemplate_nobrace_list (data : List (String × String)) :
    ∀ (l : List Char) (t : String), (∀ c ∈ l, c ≠ '{') →
      applyTemplate (String.mk l ++ t) data = String.mk l ++ applyTemplate t data := by
  intro l
  induction l with
  | nil =>
      intro t _
      have h1 : String.mk [] ++ t = t := rfl
      rw [h1]
      rfl
  | cons c cs ih =>
      intro t hl
      have h1 : String.mk (c :: cs) ++ t = String.singleton c ++ (String.mk cs ++ t) := rfl
      rw [h1, applyTemplate_cons c _ data (hl c (List.mem_cons_self c cs)),
        ih t (fun d hd => hl d (List.mem_cons_of_mem c hd))]
      rfl

/-- Helper: a brace-free prefix string passes through the scanner unchanged. -/
theorem applyTemplate_nobrace (p t : String) (data : List (String × String))
    (hp : ∀ c ∈ p.toList, c ≠ '{') :
    applyTemplate (p ++ t) data = p ++ applyTemplate t data := by
  have h := applyTemplate_nobrace_list data p.toList t hp
  have hp' : String.mk p.toList = p := rfl
  rwa [hp'] at h

/-- C4 (amended): applyTemplate replaces each `{{key}}` token (key a non-empty
run of word characters) whose key is bound in the values map by the mapped
value verbatim; a token whose key is unbound is left textually unchanged
unless the key names an `Object.prototype` member, in which case `data[key]`
is the inherited member (not undefined) and the token is replaced by its
string coercion; all other characters pass through, and — being compositional
in the rest of the template — repeated tokens and tokens in any order are
handled; as a Lean function it is side-effect-free by construction. -/
theorem applyTemplate_spec (data : List (String × String)) (k v t : String)
    (c : Char) (hk : validKey k = true) :
    (lookupValue data k = some v →
      applyTemplate ("\x7b\x7b" ++ k ++ "\x7d\x7d" ++ t) data = v ++ applyTemplate t data) ∧
    (lookupValue data k = none → k ∉ protoProps →
      applyTemplate ("\x7b\x7b" ++ k ++ "\x7d\x7d" ++ t) data =
        "\x7b\x7b" ++ k ++ "\x7d\x7d" ++ applyTemplate t data) ∧
    (lookupValue data k = none → k ∈ protoProps →
      applyTemplate ("\x7b\x7b" ++ k ++ "\x7d\x7d" ++ t) data =
        protoValue k ++ applyTemplate t data) ∧
    (c ≠ '{' →
      applyTemplate (String.singleton c ++ t) data =
        String.singleton c ++ applyTemplate t data) ∧
    applyTemplate "" data = "" :=
  ⟨fun hv => applyTemplate_token_found k v t data hk
     (by rw [jsProp, hv]),
   fun hv hp => applyTemplate_token_missing k t data hk
     (by rw [jsProp, hv]; simp [hp]),
   fun hv hp => applyTemplate_token_found k (protoValue k) t data hk
     (by rw [jsProp, hv]; simp [hp]),
   fun hc => applyTemplate_cons c t data hc,
   rfl⟩

/-- C4 counterexample: with the empty values map, the token `{{toString}}` is
not left unchanged: `data["toString"]` finds the inherited
`Object.prototype.toString`, which is not undefined, so the claim's
absent-keys-unchanged property fails as stated. -/
theorem applyTemplate_proto_key_not_unchanged :
    applyTemplate ("\x7b\x7b" ++ "toString" ++ "\x7d\x7d") [] ≠
      "\x7b\x7b" ++ "toString" ++ "\x7d\x7d" ∧
    applyTemplate ("\x7b\x7b" ++ "toString" ++ "\x7d\x7d") [] =
      "function toString() \x7b [native code] \x7d" :=
  ⟨by decide, by decide⟩

/-- C4 witness: the theorem at concrete inputs — the spec's own bound-key
example, an unbound ordinary key left unchanged, and an unbound
prototype-named key substituted with the inherited member. -/
theorem applyTemplate_spec_witness :
    validKey "name" = true ∧
    applyTemplate ("\x7b\x7b" ++ "name" ++ "\x7d\x7d" ++ "!") [("name", "World")] =
      "World" ++ applyTemplate "!" [("name", "World")] ∧
    applyTemplate ("\x7b\x7b" ++ "missing" ++ "\x7d\x7d" ++ "!") [] =
      "\x7b\x7b" ++ "missing" ++ "\x7d\x7d" ++ applyTemplate "!" [] ∧
    applyTemplate ("\x7b\x7b" ++ "valueOf" ++ "\x7d\x7d" ++ "!") [] =
      protoValue "valueOf" ++ applyTemplate "!" [] :=
  ⟨by decide,
   (applyTemplate_spec [("name", "World")] "name" "World" "!" 'x'
     (by decide)).1 (by decide),
   (applyTemplate_spec [] "missing" "v" "!" 'x'
     (by decide)).2.1 (by decide) (by decide),
   (applyTemplate_spec [] "valueOf" "v" "!" 'x'
     (by decide)).2.2.1 (by decide) (by decide)⟩

/-- C10: applyTemplate is single-pass: a substituted value is inserted into
the output literally and never re-scanned, so a value that is itself a
placeholder token of another bound key stays as that token text (it is not
expanded), and a value that is a regex replacement pattern such as `$&` stays
verbatim (the source uses a replacer function, to which `$&` is not special). -/
theorem applyTemplate_single_pass (k1 k2 v2 : String)
    (hk1 : validKey k1 = true) (hk2 : validKey k2 = true) :
    applyTemplate ("\x7b\x7b" ++ k1 ++ "\x7d\x7d")
        [(k1, "\x7b\x7b" ++ k2 ++ "\x7d\x7d"), (k2, v2)] = "\x7b\x7b" ++ k2 ++ "\x7d\x7d" ∧
    applyTemplate ("\x7b\x7b" ++ k1 ++ "\x7d\x7d") [(k1, "$&")] = "$&" := by
  constructor
  · have hl : jsProp [(k1, "\x7b\x7b" ++ k2 ++ "\x7d\x7d"), (k2, v2)] k1 =
        some ("\x7b\x7b" ++ k2 ++ "\x7d\x7d") := by
      simp [jsProp, lookupValue]
    have h := applyTemplate_token_found k1 ("\x7b\x7b" ++ k2 ++ "\x7d\x7d") ""
      [(k1, "\x7b\x7b" ++ k2 ++ "\x7d\x7d"), (k2, v2)] hk1 hl
    rw [String.append_empty, applyTemplate_empty, String.append_empty] at h
    exact h
  · have hl : jsProp [(k1, "$&")] k1 = some "$&" := by
      simp [jsProp, lookupValue]
    have h := applyTemplate_token_found k1 "$&" "" [(k1, "$&")] hk1 hl
    rw [String.append_empty, applyTemplate_empty, String.append_empty] at h
    exact h

/-- C10 witness: the theorem at concrete keys; the bound value `{{b}}` is
emitted as token text, not expanded to `BOOM`. -/
theorem applyTemplate_single_pass_witness :
    validKey "a" = true ∧ validKey "b" = true ∧
    applyTemplate ("\x7b\x7b" ++ "a" ++ "\x7d\x7d")
        [("a", "\x7b\x7b" ++ "b" ++ "\x7d\x7d"), ("b", "BOOM")] = "\x7b\x7b" ++ "b" ++ "\x7d\x7d" ∧
    applyTemplate ("\x7b\x7b" ++ "a" ++ "\x7d\x7d") [("a", "$&")] = "$&" :=
  ⟨by decide, by decide,
   (applyTemplate_single_pass "a" "b" "BOOM" (by decide) (by decide)).1,
   (applyTemplate_single_pass "a" "b" "BOOM" (by decide) (by decide)).2⟩

/-- Helper: a list is a prefix of itself followed by anything. -/
theorem startsWithL_self_append :
    ∀ t post : List Char, startsWithL (t ++ post) t = true := by
  intro t
  induction t with
  | nil => intro post; cases post <;> rfl
  | cons c cs ih =>
      intro post
      rw [List.cons_append, startsWithL]
      simp [ih post]

/-- Helper: `containsSub` finds a needle occurring anywhere in the haystack. -/
theorem containsSub_middle :
    ∀ pre t post : List Char, containsSub (pre ++ (t ++ post)) t = true := by
  intro pre
  induction pre with
  | nil =>
      intro t post
      rw [List.nil_append]
      cases t with
      | nil =>
          cases post with
          | nil => rfl
          | cons d ds => simp [containsSub, startsWithL]
      | cons c cs =>
          have hs := startsWithL_self_append (c :: cs) post
          rw [List.cons_append] at hs ⊢
          rw [containsSub, hs]
          simp
  | cons a pre' ih =>
      intro t post
      rw [List.cons_append, containsSub, ih t post]
      simp

/-- Helper: rendering the default template substitutes the title (twice) and
the message into the static HTML shell. -/
theorem render_default (t m : String) :
    applyTemplate defaultTemplate [("title", t), ("message", m)] =
      "<html><head><title>" ++ (t ++ ("</title></head><body><h1>" ++
        (t ++ ("</h1><div>" ++ (m ++ "</div></body></html>"))))) := by
  have hsplit : defaultTemplate =
      "<html><head><title>" ++ (("\x7b\x7b" ++ "title" ++ "\x7d\x7d") ++
        ("</title></head><body><h1>" ++ (("\x7b\x7b" ++ "title" ++ "\x7d\x7d") ++
          ("</h1><div>" ++ (("\x7b\x7b" ++ "message" ++ "\x7d\x7d") ++
            "</div></body></html>"))))) := by decide
  have hlast : applyTemplate "</div></body></html>"
      [("title", t), ("message", m)] = "</div></body></html>" := by
    have h := applyTemplate_nobrace "</div></body></html>" ""
      [("title", t), ("message", m)] (by decide)
    rwa [String.append_empty, applyTemplate_empty, String.append_empty] at h
  rw [hsplit,
    applyTemplate_nobrace _ _ _ (by decide),
    applyTemplate_token_found "title" t _ _ (by decide) (by simp [jsProp, lookupValue]),
    applyTemplate_nobrace _ _ _ (by decide),
    applyTemplate_token_found "title" t _ _ (by decide) (by simp [jsProp, lookupValue]),
    applyTemplate_nobrace _ _ _ (by decide),
    applyTemplate_token_found "message" m _ _ (by decide) (by simp [jsProp, lookupValue]),
    hlast]

/-- C1 (amended): for non-empty title and message where the message does not
contain `<html` case-insensitively, `POST /new` responds 204 with an empty
body, persists a page file under the freshly generated id, and a subsequent
`GET /<that-id>` responds 200 (Content-Type text/html) with content containing
the title. (As stated over all bodies the claim fails: a message containing
`<html` is stored verbatim and need not contain the title.) -/
theorem postNew_then_get (st : Store) (uniq title msg : String)
    (ht : title ≠ "") (hm : msg ≠ "")
    (hnothtml : containsSub (jsToLower msg.toList) "<html".toList = false) :
    ∃ content : String,
      (postNew defaultTemplate "localhost:3000" 32 uniq st
          (some title) (some msg)).resp = ⟨204, none, ""⟩ ∧
      getPage (postNew defaultTemplate "localhost:3000" 32 uniq st
          (some title) (some msg)).store (generatePageId 32 uniq) =
        ⟨200, some "text/html", content⟩ ∧
      containsSub content.toList title.toList = true := by
  have hcond : ¬((some title).getD "" = "" ∨ (some msg).getD "" = "") := by
    simp only [Option.getD_some]
    exact not_or.mpr ⟨ht, hm⟩
  rw [postNew, if_neg hcond]
  simp only [Option.getD_some]
  rw [hnothtml]
  simp only [Bool.false_eq_true, if_false]
  refine ⟨applyTemplate defaultTemplate
    [("title", title), ("message", String.mk (replaceNewlines msg.toList))],
    by trivial, ?_, ?_⟩
  · rw [getPage]
    have hname : storeLookup
        (("page-" ++ generatePageId 32 uniq ++ ".html",
          applyTemplate defaultTemplate
            [("title", title),
             ("message", String.mk (replaceNewlines msg.toList))]) :: st)
        ("page-" ++ generatePageId 32 uniq ++ ".html") =
        some (applyTemplate defaultTemplate
          [("title", title),
           ("message", String.mk (replaceNewlines msg.toList))]) := by
      rw [storeLookup, if_pos rfl]
    rw [hname]
  · rw [render_default]
    show containsSub (String.data _) _ = true
    simp only [String.data_append]
    exact containsSub_middle _ _ _

/-- C1 counterexample: with title `"z"` and the valid non-empty message
`"<html></html>"`, the create succeeds with 204 but the page served back is
the verbatim message, which does not contain the title — refuting the claim
as stated over every non-empty title/message pair. -/
theorem postNew_html_message_loses_title :
    (postNew defaultTemplate "localhost:3000" 32 "u" []
        (some "z") (some "<html></html>")).resp.status = 204 ∧
    (getPage (postNew defaultTemplate "localhost:3000" 32 "u" []
        (some "z") (some "<html></html>")).store (generatePageId 32 "u")).status
      = 200 ∧
    containsSub (getPage (postNew defaultTemplate "localhost:3000" 32 "u" []
        (some "z") (some "<html></html>")).store
        (generatePageId 32 "u")).body.toList "z".toList = false := by
  refine ⟨by decide, by decide, by decide⟩

/-- C1 witness: the theorem at a concrete store, title and message. -/
theorem postNew_then_get_witness :
    ∃ content : String,
      (postNew defaultTemplate "localhost:3000" 32 "2025-01-01T00:00:00.000Z0.5" []
          (some "Hello") (some "World")).resp = ⟨204, none, ""⟩ ∧
      getPage (postNew defaultTemplate "localhost:3000" 32
          "2025-01-01T00:00:00.000Z0.5" [] (some "Hello") (some "World")).store
          (generatePageId 32 "2025-01-01T00:00:00.000Z0.5") =
        ⟨200, some "text/html", content⟩ ∧
      containsSub content.toList "Hello".toList = true :=
  postNew_then_get [] "2025-01-01T00:00:00.000Z0.5" "Hello" "World"
    (by decide) (by decide) (by decide)

/-- C3: in the create handler, a message that case-insensitively contains
`<html` is stored byte-for-byte as the file content (no templating, no newline
conversion); any other message has each newline replaced by `<br/>` and is
substituted, together with the title, into the loaded template. -/
theorem postNew_content (tmpl domain : String) (L : Nat) (uniq : String)
    (st : Store) (title msg : String) (ht : title ≠ "") (hm : msg ≠ "") :
    (containsSub (jsToLower msg.toList) "<html".toList = true →
      (postNew tmpl domain L uniq st (some title) (some msg)).store =
        ("page-" ++ generatePageId L uniq ++ ".html", msg) :: st) ∧
    (containsSub (jsToLower msg.toList) "<html".toList = false →
      (postNew tmpl domain L uniq st (some title) (some msg)).store =
        ("page-" ++ generatePageId L uniq ++ ".html",
          applyTemplate tmpl
            [("title", title),
             ("message", String.mk (replaceNewlines msg.toList))]) :: st) := by
  have hcond : ¬((some title).getD "" = "" ∨ (some msg).getD "" = "") := by
    simp only [Option.getD_some]
    exact not_or.mpr ⟨ht, hm⟩
  constructor
  · intro hhtml
    rw [postNew, if_neg hcond]
    simp only [Option.getD_some]
    rw [hhtml]
    simp
  · intro hhtml
    rw [postNew, if_neg hcond]
    simp only [Option.getD_some]
    rw [hhtml]
    simp

/-- C3 witness: the theorem at concrete inputs, once with an HTML message
stored verbatim and once with a plain message whose newline becomes `<br/>`
inside the rendered template. -/
theorem postNew_content_witness :
    (postNew "X{{message}}Y" "d" 16 "u" [] (some "a") (some "<html>")).store =
      [("page-" ++ generatePageId 16 "u" ++ ".html", "<html>")] ∧
    (postNew "X{{message}}Y" "d" 16 "u" [] (some "a") (some "line1\nline2")).store =
      [("page-" ++ generatePageId 16 "u" ++ ".html",
        applyTemplate "X{{message}}Y"
          [("title", "a"),
           ("message", String.mk (replaceNewlines ("line1\nline2").toList))])] :=
  ⟨(postNew_content "X{{message}}Y" "d" 16 "u" [] "a" "<html>"
      (by decide) (by decide)).1 (by decide),
   (postNew_content "X{{message}}Y" "d" 16 "u" [] "a" "line1\nline2"
      (by decide) (by decide)).2 (by decide)⟩

/-- C5: a `POST /new` whose title or message is missing or empty responds 400
with the exact JSON error body, leaves the store unchanged, and sends no
email. -/
theorem postNew_validation (tmpl domain : String) (L : Nat) (uniq : String)
    (st : Store) (title message : Option String)
    (h : title.getD "" = "" ∨ message.getD "" = "") :
    postNew tmpl domain L uniq st title message =
      ⟨⟨400, some "application/json", errRequired⟩, st, none⟩ := by
  rw [postNew, if_pos h]

/-- C5 witness: the theorem at a missing title, and the exact error body. -/
theorem postNew_validation_witness :
    postNew "T" "d" 32 "u" [("page-x.html", "c")] none (some "hi") =
      ⟨⟨400, some "application/json", errRequired⟩, [("page-x.html", "c")], none⟩ ∧
    errRequired = "\x7b\"error\":\"Title and message are required\"\x7d" :=
  ⟨postNew_validation "T" "d" 32 "u" [("page-x.html", "c")] none (some "hi")
      (Or.inl rfl),
   rfl⟩

/-- C6: `GET /:pageId` responds 200 with the exact stored content and
Content-Type text/html when `page-<pageId>.html` exists in the data
directory, and 404 with the exact plain body "Page not found" otherwise. -/
theorem getPage_spec (st : Store) (pageId : String) :
    (∀ c, storeLookup st ("page-" ++ pageId ++ ".html") = some c →
      getPage st pageId = ⟨200, some "text/html", c⟩) ∧
    (storeLookup st ("page-" ++ pageId ++ ".html") = none →
      getPage st pageId = ⟨404, none, "Page not found"⟩) := by
  constructor
  · intro c hc
    rw [getPage, hc]
  · intro hc
    rw [getPage, hc]

/-- C6 witness: the theorem at a concrete store, in both branches. -/
theorem getPage_spec_witness :
    getPage [("page-abc.html", "X")] "abc" = ⟨200, some "text/html", "X"⟩ ∧
    getPage [("page-abc.html", "X")] "missing" =
      ⟨404, none, "Page not found"⟩ :=
  ⟨(getPage_spec [("page-abc.html", "X")] "abc").1 "X" (by decide),
   (getPage_spec [("page-abc.html", "X")] "missing").2 (by decide)⟩

/-- C7: `sendEmail` never rejects to its caller: for every configuration and
delivery outcome it returns normally (`Except.ok`), and it always logs — the
skip message when the configuration is incomplete, otherwise the success line
on delivery success and the caught error line on delivery failure. -/
theorem sendEmail_never_throws (config : IConfig) (pageUrl title : String)
    (o : SendOutcome) :
    ∃ r : EmailResult, sendEmail config pageUrl title o = .ok r ∧
      r.log = (if config.smtp.host = "" ∨ config.email.fromAddr = "" ∨
          config.email.toAddr = "" then
            ["SMTP configuration incomplete, skipping email send"]
        else match o with
          | .success id => ["Email sent: " ++ id]
          | .failure e => ["Error sending email: " ++ e]) := by
  rw [sendEmail]
  by_cases h : config.smtp.host = "" ∨ config.email.fromAddr = "" ∨
      config.email.toAddr = ""
  · rw [if_pos h, if_pos h]
    exact ⟨_, rfl, rfl⟩
  · rw [if_neg h, if_neg h]
    cases o with
    | success id => exact ⟨_, rfl, rfl⟩
    | failure e => exact ⟨_, rfl, rfl⟩

/-- C8: with the SMTP host, the from-address, or the to-address empty,
`sendEmail` constructs no transport and hands over no mail: it only logs the
skip message and returns normally. -/
theorem sendEmail_skip (config : IConfig) (pageUrl title : String)
    (o : SendOutcome)
    (h : config.smtp.host = "" ∨ config.email.fromAddr = "" ∨
      config.email.toAddr = "") :
    sendEmail config pageUrl title o =
      .ok ⟨none, none, ["SMTP configuration incomplete, skipping email send"]⟩ := by
  rw [sendEmail, if_pos h]

/-- C8 witness: the theorem at a configuration with an empty host. -/
theorem sendEmail_skip_witness :
    sendEmail ⟨⟨"", "465", "u", "p"⟩, ⟨"a@b.test", "c@d.test"⟩, "example.test"⟩
        "http://example.test/x" "T" (.success "mid") =
      .ok ⟨none, none, ["SMTP configuration incomplete, skipping email send"]⟩ :=
  sendEmail_skip ⟨⟨"", "465", "u", "p"⟩, ⟨"a@b.test", "c@d.test"⟩, "example.test"⟩
    "http://example.test/x" "T" (.success "mid") (Or.inl rfl)

/-- C9: when host, from and to are all non-empty, the transport is built with
the configured host, with port 25 if the configured port string is empty, with
secure=true exactly when the port string is "465", and with auth credentials
attached exactly when both username and password are non-empty. -/
theorem sendEmail_transport (config : IConfig) (pageUrl title : String)
    (o : SendOutcome) (hh : config.smtp.host ≠ "")
    (hf : config.email.fromAddr ≠ "") (ht : config.email.toAddr ≠ "") :
    ∃ (r : EmailResult) (tr : Transport),
      sendEmail config pageUrl title o = .ok r ∧
      r.transport = some tr ∧
      tr.host = config.smtp.host ∧
      (config.smtp.port = "" → tr.port = some 25) ∧
      (tr.secure = true ↔ config.smtp.port = "465") ∧
      (tr.auth.isSome = true ↔
        (config.smtp.user ≠ "" ∧ config.smtp.pass ≠ "")) := by
  have hcond : ¬(config.smtp.host = "" ∨ config.email.fromAddr = "" ∨
      config.email.toAddr = "") := by
    simp [hh, hf, ht]
  rw [sendEmail, if_neg hcond]
  cases o with
  | success id =>
      refine ⟨_, _, rfl, rfl, rfl, ?_, ?_, ?_⟩
      · intro hp
        simp only [hp, if_pos]
      · simp
      · by_cases hq : config.smtp.user ≠ "" ∧ config.smtp.pass ≠ "" <;>
          simp [hq]
  | failure e =>
      refine ⟨_, _, rfl, rfl, rfl, ?_, ?_, ?_⟩
      · intro hp
        simp only [hp, if_pos]
      · simp
      · by_cases hq : config.smtp.user ≠ "" ∧ config.smtp.pass ≠ "" <;>
          simp [hq]

/-- C9 witness: the theorem at a full configuration with port "465" (the
spec's own example: the transport is constructed with secure=true). -/
theorem sendEmail_transport_witness :
    ∃ (r : EmailResult) (tr : Transport),
      sendEmail ⟨⟨"smtp.example.test", "465", "u", "p"⟩,
          ⟨"a@b.test", "c@d.test"⟩, "example.test"⟩
        "http://example.test/x" "T" (.success "mid") = .ok r ∧
      r.transport = some tr ∧
      tr.host = "smtp.example.test" ∧
      (("465" : String) = "" → tr.port = some 25) ∧
      (tr.secure = true ↔ ("465" : String) = "465") ∧
      (tr.auth.isSome = true ↔ (("u" : String) ≠ "" ∧ ("p" : String) ≠ "")) :=
  sendEmail_transport ⟨⟨"smtp.example.test", "465", "u", "p"⟩,
      ⟨"a@b.test", "c@d.test"⟩, "example.test"⟩
    "http://example.test/x" "T" (.success "mid")
    (by decide) (by decide) (by decide)

end EmailPage
